import Mathlib

/-!
Shallow embedding of the layout resource core of `server/layout.go`
(chronograf): the layout data model, the validator `ValidLayoutRequest`,
the response builder `newLayoutResponse`, the list filter/dedup pass of
the `Layouts` handler, and the `UpdateLayout` handler, together with
theorems settling the specification claims about them.
-/

set_option autoImplicit false

namespace Chronograf

/-- Modelled from the spec: the `chronograf.Axis` record (spec section 3;
the struct declaration lives in the chronograf root package, outside the
provided server source). `Bounds` is an ordered sequence of strings. -/
structure Axis where
  Bounds : List String
deriving DecidableEq, Repr

/-- Modelled from the spec: `chronograf.Query` as used by this core; only
the `Command` field (the query text) is read. -/
structure Query where
  Command : String
deriving DecidableEq, Repr

/-- Modelled from the spec: `chronograf.Cell` (spec section 3). The Go
`Axes` field is a `map[string]Axis` which may be `nil`: `none` is the nil
map, `some m` is a non-nil map given by its key/value pairs (keys
distinct). `W` and `H` are the integer dimensions. -/
structure Cell where
  W : Int
  H : Int
  Queries : List Query
  Axes : Option (List (String × Axis))
deriving DecidableEq, Repr

/-- Modelled from the spec: `chronograf.Layout` (spec section 3), with
the fields this core reads. -/
structure Layout where
  ID : String
  Application : String
  Measurement : String
  Organization : String
  Cells : List Cell
deriving DecidableEq, Repr

/-- `link` from `server/layout.go`. -/
structure link where
  Href : String
  Rel : String
deriving DecidableEq, Repr

/-- `layoutResponse` from `server/layout.go`: a layout together with its
self link. -/
structure layoutResponse where
  Layout : Layout
  Link : link
deriving DecidableEq, Repr

/-- Lookup of a key in a Go map represented as an association list
(`m[k]` with the `, found` form: `none` means absent). -/
def mapFind : List (String × Axis) → String → Option Axis
  | [], _ => none
  | (k, v) :: rest, key => if k = key then some v else mapFind rest key

/-- Insertion of a binding for a key that is absent from the map
(`m[k] = v` in Go for a fresh key `k`). -/
def mapInsert (m : List (String × Axis)) (k : String) (v : Axis) :
    List (String × Axis) :=
  m ++ [(k, v)]

/-- The three well-known axis names, from `newLayoutResponse`. -/
def axisNames : List String := ["x", "y", "y2"]

/-- One iteration of the axis loop of `newLayoutResponse`: when the axis
name is absent, an `Axis` with empty bounds is inserted. -/
def repairStep (m : List (String × Axis)) (a : String) :
    List (String × Axis) :=
  if (mapFind m a).isSome then m else mapInsert m a { Bounds := [] }

/-- The axis loop of `newLayoutResponse` over one cell's map. -/
def repairAxes (m : List (String × Axis)) : List (String × Axis) :=
  axisNames.foldl repairStep m

/-- The per-cell body of `newLayoutResponse`: a nil `Axes` map is
replaced by a fresh empty map, then the missing well-known axis names are
inserted with empty bounds. -/
def repairCell (c : Cell) : Cell :=
  { c with Axes := some (repairAxes (c.Axes.getD [])) }

/-- `newLayoutResponse` from `server/layout.go`: axis repair on every
cell plus the self link. -/
def newLayoutResponse (layout : Layout) : layoutResponse :=
  { Layout := { layout with Cells := layout.Cells.map repairCell },
    Link :=
      { Href := "/chronograf/v1/layouts" ++ "/" ++ layout.ID,
        Rel := "self" } }

/-- The inner query loop of `ValidLayoutRequest` over one cell's
queries. -/
def checkQueries : List Query → Option String
  | [] => none
  | q :: qs =>
    if q.Command = "" then some "query required" else checkQueries qs

/-- The cell loop of `ValidLayoutRequest`: per cell, the `W`/`H` check
first, then that cell's queries. -/
def checkCells : List Cell → Option String
  | [] => none
  | c :: cs =>
    if c.W = 0 ∨ c.H = 0 then some "w, and h required"
    else
      match checkQueries c.Queries with
      | some e => some e
      | none => checkCells cs

/-- `ValidLayoutRequest` from `server/layout.go`. `none` is a nil error,
`some msg` an error with message `msg`. The assignment
`l.Organization = defaultOrgID` of the source acts on the callee's local
copy `l` (Go passes the struct by value) and is mirrored by the local
rebinding. -/
def ValidLayoutRequest (l : Layout) (defaultOrgID : String) :
    Option String :=
  if l.Application = "" ∨ l.Measurement = "" ∨ l.Cells.length = 0 then
    some "app, measurement, and cells required"
  else
    let l := if l.Organization = "" then
      { l with Organization := defaultOrgID } else l
    checkCells l.Cells

/-- The filter closure of the `Layouts` handler: pass-all when the term
set is empty, otherwise membership of the measurement or the
application. -/
def filterPass (filtered : List String) (l : Layout) : Bool :=
  if filtered.length = 0 then true
  else filtered.contains l.Measurement || filtered.contains l.Application

/-- The selection loop of the `Layouts` handler. `seen` holds the keys
the loop treats as already emitted; the source consults
`seen[layout.Measurement+layout.ID]` but never stores into `seen`, so
the accumulator is threaded unchanged, exactly as in the code. -/
def layoutsLoop (filtered : List String) (seen : List String) :
    List Layout → List layoutResponse
  | [] => []
  | l :: ls =>
    if seen.contains (l.Measurement ++ l.ID) then
      layoutsLoop filtered seen ls
    else if filterPass filtered l then
      newLayoutResponse l :: layoutsLoop filtered seen ls
    else
      layoutsLoop filtered seen ls

/-- The filter/dedup pass of the `Layouts` handler (`Select` in the
spec): a single left-to-right pass over the store's collection with an
initially-empty `seen` map. -/
def selectLayouts (filtered : List String) (layouts : List Layout) :
    List layoutResponse :=
  layoutsLoop filtered [] layouts

/-- Outcome of one `UpdateLayout` request, one constructor per exit path
of the handler. -/
inductive UpdateOutcome where
  | notFound (msg : String)
  | invalidJSON
  | unknownError
  | invalidData (msg : String)
  | updateError (msg : String)
  | success (res : layoutResponse)
deriving DecidableEq, Repr

/-- `UpdateLayout` from `server/layout.go`, with the store and the body
decoder as oracles: `getRes` is the store `Get` on the path id, `body`
the decoded request body, `orgRes` the default organization's numeric
id, `updErr` the store `Update` result. The source's `req.ID = id`
assignment appears as the record update on the decoded body. Returns
the outcome paired with the argument passed to the store's `Update`
(`none` when `Update` is never invoked). -/
def updateLayout (id : String) (getRes : Except String Layout)
    (body : Except String Layout) (orgRes : Except String Nat)
    (updErr : Option String) : UpdateOutcome × Option Layout :=
  match getRes with
  | .error _ => (.notFound ("ID " ++ id ++ " not found"), none)
  | .ok _ =>
    match body with
    | .error _ => (.invalidJSON, none)
    | .ok req0 =>
      match orgRes with
      | .error _ => (.unknownError, none)
      | .ok orgID =>
        match ValidLayoutRequest { req0 with ID := id }
            (toString orgID) with
        | some e => (.invalidData e, none)
        | none =>
          match updErr with
          | some e =>
            (.updateError ("Error updating layout ID " ++ id ++ ": " ++ e),
              some { req0 with ID := id })
          | none =>
            (.success (newLayoutResponse { req0 with ID := id }),
              some { req0 with ID := id })

/-- A well-formed sample cell. -/
def cellOK : Cell :=
  { W := 1, H := 1, Queries := [{ Command := "SELECT 1" }], Axes := none }

/-- A sample layout. -/
def L0 : Layout :=
  { ID := "1", Application := "app1", Measurement := "m1",
    Organization := "", Cells := [cellOK] }

/-- A second sample layout with a distinct application and
measurement. -/
def L1 : Layout :=
  { ID := "2", Application := "app2", Measurement := "m2",
    Organization := "", Cells := [cellOK] }

/-- A cell whose only violation is an empty query command. -/
def cellEmptyQuery : Cell :=
  { W := 1, H := 1, Queries := [{ Command := "" }], Axes := none }

/-- A cell whose only violation is a zero width. -/
def cellZeroDim : Cell :=
  { W := 0, H := 2, Queries := [], Axes := none }

/-- A layout holding an empty-command query in its first cell and a
zero-dimension second cell. -/
def L3 : Layout :=
  { ID := "3", Application := "app3", Measurement := "m3",
    Organization := "", Cells := [cellEmptyQuery, cellZeroDim] }

/-- A layout whose single cell carries an axis name outside the
well-known three. -/
def L4 : Layout :=
  { ID := "4", Application := "app4", Measurement := "m4",
    Organization := "",
    Cells := [{ W := 1, H := 1, Queries := [],
                Axes := some [("z", { Bounds := ["0"] })] }] }

/-- The first guard of `ValidLayoutRequest` aside, the result is the
cell check alone: the `Organization` defaulting of the source touches
only the callee's local copy and no later check reads it. -/
lemma validLayoutRequest_eq (l : Layout) (d : String) :
    ValidLayoutRequest l d =
      if l.Application = "" ∨ l.Measurement = "" ∨ l.Cells.length = 0 then
        some "app, measurement, and cells required"
      else checkCells l.Cells := by
  unfold ValidLayoutRequest
  split
  · rfl
  · by_cases h : l.Organization = "" <;> simp [h]

/-- The query loop succeeds exactly when every command is non-empty. -/
lemma checkQueries_eq_none_iff (qs : List Query) :
    checkQueries qs = none ↔ ∀ q ∈ qs, q.Command ≠ "" := by
  induction qs with
  | nil => simp [checkQueries]
  | cons q qs ih =>
    by_cases h : q.Command = "" <;> simp [checkQueries, h, ih]

/-- The cell loop succeeds exactly when every cell has non-zero
dimensions and no empty query command. -/
lemma checkCells_eq_none_iff (cs : List Cell) :
    checkCells cs = none ↔
      ∀ c ∈ cs, (c.W ≠ 0 ∧ c.H ≠ 0) ∧
        ∀ q ∈ c.Queries, q.Command ≠ "" := by
  induction cs with
  | nil => simp [checkCells]
  | cons c cs ih =>
    by_cases h : c.W = 0 ∨ c.H = 0
    · refine iff_of_false (by simp [checkCells, if_pos h]) ?_
      rw [List.forall_mem_cons]
      rintro ⟨⟨⟨hW, hH⟩, -⟩, -⟩
      rcases h with h | h
      · exact hW h
      · exact hH h
    · have h' := h
      push_neg at h'
      cases hq : checkQueries c.Queries with
      | some e =>
        refine iff_of_false (by simp [checkCells, if_neg h, hq]) ?_
        rw [List.forall_mem_cons]
        rintro ⟨⟨-, hall⟩, -⟩
        have hnone := (checkQueries_eq_none_iff c.Queries).2 hall
        rw [hq] at hnone
        cases hnone
      | none =>
        have hstep : checkCells (c :: cs) = checkCells cs := by
          simp [checkCells, if_neg h, hq]
        rw [hstep, ih, List.forall_mem_cons]
        constructor
        · intro hall
          exact ⟨⟨h', (checkQueries_eq_none_iff c.Queries).1 hq⟩, hall⟩
        · intro hall
          exact hall.2

/-- Cells that pass both of their checks are skipped by the cell
loop. -/
lemma checkCells_append_of_ok (pre rest : List Cell)
    (hpre : ∀ c ∈ pre, ¬(c.W = 0 ∨ c.H = 0) ∧
      ∀ q ∈ c.Queries, q.Command ≠ "") :
    checkCells (pre ++ rest) = checkCells rest := by
  induction pre with
  | nil => rfl
  | cons c cs ih =>
    obtain ⟨hwh, hq⟩ := hpre c (by simp)
    have hqnone := (checkQueries_eq_none_iff c.Queries).2 hq
    simp only [List.cons_append, checkCells, if_neg hwh, hqnone]
    exact ih fun c' hc' => hpre c' (by simp [hc'])

/-- With an empty `seen` accumulator the selection loop is exactly
filter-then-build: nothing is ever treated as already emitted. -/
lemma layoutsLoop_empty_seen (f : List String) (ls : List Layout) :
    layoutsLoop f [] ls =
      (ls.filter (fun l => filterPass f l)).map newLayoutResponse := by
  induction ls with
  | nil => rfl
  | cons l ls ih =>
    have hseen : (([] : List String).contains (l.Measurement ++ l.ID)) =
        false := by simp
    cases hf : filterPass f l <;>
      simp [layoutsLoop, hseen, hf, ih, List.filter_cons]

/-- C2: for every layout `L` and string `defaultOrganizationID`,
`ValidLayoutRequest L defaultOrganizationID` returns an error if and
only if the application is empty, or the measurement is empty, or there
are no cells, or some cell has a zero width or height, or some query of
some cell has an empty command; otherwise it returns nil. -/
theorem validLayoutRequest_error_iff (l : Layout) (d : String) :
    (ValidLayoutRequest l d).isSome = true ↔
      (l.Application = "" ∨ l.Measurement = "" ∨ l.Cells = [] ∨
        (∃ c ∈ l.Cells, c.W = 0 ∨ c.H = 0) ∨
        (∃ c ∈ l.Cells, ∃ q ∈ c.Queries, q.Command = "")) := by
  rw [validLayoutRequest_eq]
  by_cases h : l.Application = "" ∨ l.Measurement = "" ∨
      l.Cells.length = 0
  · rw [if_pos h]
    refine iff_of_true rfl ?_
    rcases h with h | h | h
    · exact Or.inl h
    · exact Or.inr (Or.inl h)
    · exact Or.inr (Or.inr (Or.inl (List.length_eq_zero.1 h)))
  · rw [if_neg h]
    push_neg at h
    obtain ⟨h1, h2, h3⟩ := h
    have h4 : l.Cells ≠ [] := by
      intro hnil
      exact h3 (by rw [hnil]; rfl)
    simp only [h1, h2, h4, false_or]
    rw [Option.isSome_iff_ne_none, ne_eq, checkCells_eq_none_iff]
    push_neg
    constructor
    · rintro ⟨c, hc, hviol⟩
      by_cases hw : c.W = 0 ∨ c.H = 0
      · exact Or.inl ⟨c, hc, hw⟩
      · push_neg at hw
        obtain ⟨q, hq, hqe⟩ := hviol hw
        exact Or.inr ⟨c, hc, q, hq, hqe⟩
    · rintro (⟨c, hc, hw⟩ | ⟨c, hc, q, hq, hqe⟩)
      · refine ⟨c, hc, fun hcon => ?_⟩
        rcases hw with hw | hw
        · exact absurd hw hcon.1
        · exact absurd hw hcon.2
      · exact ⟨c, hc, fun _ => ⟨q, hq, hqe⟩⟩

/-- C10: the validation outcome is independent of the default
organization argument and of the layout's `Organization` field: the
result, error message included, is the same for any two defaults and
any two organization values. -/
theorem validation_independent_of_org (l : Layout) (d1 d2 o1 o2 : String) :
    ValidLayoutRequest { l with Organization := o1 } d1 =
      ValidLayoutRequest { l with Organization := o2 } d2 := by
  rw [validLayoutRequest_eq, validLayoutRequest_eq]

/-- C3 as stated is false: `L3` passes the required-fields check, holds
both a zero-dimension cell and an empty-command query, yet the validator
reports the query error, not the "w and h required" error, because the
empty-command cell comes first. -/
theorem validation_order_counterexample :
    ((∃ c ∈ L3.Cells, c.W = 0 ∨ c.H = 0) ∧
      (∃ c ∈ L3.Cells, ∃ q ∈ c.Queries, q.Command = "")) ∧
      ValidLayoutRequest L3 "0" ≠ some "w, and h required" := by decide

/-- C3 amended: cells are validated in order with the dimension check
before the query check within each cell, so when every cell before a
zero-dimension cell passes both of its checks, the validator reports
"w, and h required" — even if that cell or later cells also hold
empty-command queries. -/
theorem validation_order_amended (l : Layout) (d : String)
    (pre : List Cell) (c : Cell) (post : List Cell)
    (happ : l.Application ≠ "") (hmea : l.Measurement ≠ "")
    (hcells : l.Cells = pre ++ c :: post)
    (hc : c.W = 0 ∨ c.H = 0)
    (hpre : ∀ c' ∈ pre, ¬(c'.W = 0 ∨ c'.H = 0) ∧
      ∀ q ∈ c'.Queries, q.Command ≠ "") :
    ValidLayoutRequest l d = some "w, and h required" := by
  have hcond : ¬(l.Application = "" ∨ l.Measurement = "" ∨
      l.Cells.length = 0) := by
    push_neg
    refine ⟨happ, hmea, ?_⟩
    rw [hcells]
    simp
  rw [validLayoutRequest_eq, if_neg hcond, hcells,
    checkCells_append_of_ok pre (c :: post) hpre]
  simp only [checkCells, if_pos hc]

/-- Witness for the amended C3: a zero-dimension cell with both an
empty-command query inside it and a clean cell before it yields the
"w, and h required" error. -/
theorem validation_order_amended_witness :
    ValidLayoutRequest
      { ID := "5", Application := "app5", Measurement := "m5",
        Organization := "",
        Cells := [cellOK,
          { W := 0, H := 2, Queries := [{ Command := "" }],
            Axes := none }] } "0" =
      some "w, and h required" :=
  validation_order_amended _ "0" [cellOK]
    { W := 0, H := 2, Queries := [{ Command := "" }], Axes := none } []
    (by decide) (by decide) rfl (by decide) (by decide)

/-- C1 fails on the code: the `seen` map of the `Layouts` handler is
consulted but never written, so a collection holding the same layout
twice yields two responses with the same `(Measurement, ID)` pair. -/
theorem select_emits_duplicates :
    (selectLayouts [] [L0, L0]).map
        (fun r => (r.Layout.Measurement, r.Layout.ID)) =
      [("m1", "1"), ("m1", "1")] := by decide

/-- C6: with no filter terms the list selection returns every input
layout, in order; with filter terms it returns exactly the layouts whose
application or measurement is among the terms, in original relative
order. -/
theorem select_filter_order (f : List String) (ls : List Layout) :
    (f = [] → selectLayouts f ls = ls.map newLayoutResponse) ∧
      (f ≠ [] → selectLayouts f ls =
        (ls.filter fun l =>
          f.contains l.Application || f.contains l.Measurement).map
          newLayoutResponse) := by
  constructor
  · intro hf
    subst hf
    rw [selectLayouts, layoutsLoop_empty_seen]
    have hall : ∀ l : Layout, filterPass [] l = true := fun l => rfl
    simp [hall]
  · intro hf
    rw [selectLayouts, layoutsLoop_empty_seen]
    congr 1
    apply List.filter_congr
    intro l _
    cases f with
    | nil => exact absurd rfl hf
    | cons a as => simp [filterPass, Bool.or_comm]

/-- Witness for C6: both branches at concrete inputs — the pass-all case
and a one-term filter keeping only the matching layout. -/
theorem select_filter_order_witness :
    selectLayouts [] [L0, L1] = [L0, L1].map newLayoutResponse ∧
      selectLayouts ["app1"] [L0, L1] =
        ([L0, L1].filter fun l =>
          (["app1"] : List String).contains l.Application ||
            (["app1"] : List String).contains l.Measurement).map
          newLayoutResponse :=
  ⟨(select_filter_order [] [L0, L1]).1 rfl,
    (select_filter_order ["app1"] [L0, L1]).2 (by decide)⟩

/-- `repairAxes` unfolded to its loop. -/
lemma repairAxes_def (m : List (String × Axis)) :
    repairAxes m = axisNames.foldl repairStep m := rfl

/-- Appending a fresh binding does not disturb a key that is already
bound. -/
lemma mapFind_append_of_some (m : List (String × Axis)) (a k : String)
    (v w : Axis) (h : mapFind m k = some v) :
    mapFind (m ++ [(a, w)]) k = some v := by
  induction m with
  | nil => cases h
  | cons p m ih =>
    obtain ⟨k', v'⟩ := p
    by_cases hk : k' = k
    · simp only [mapFind, List.cons_append, if_pos hk] at h ⊢
      exact h
    · simp only [mapFind, List.cons_append, if_neg hk] at h ⊢
      exact ih h

/-- Appending a fresh binding to a map missing the key resolves lookups
of exactly that binding's key. -/
lemma mapFind_append_of_none (m : List (String × Axis)) (a k : String)
    (w : Axis) (h : mapFind m k = none) :
    mapFind (m ++ [(a, w)]) k = if a = k then some w else none := by
  induction m with
  | nil => rfl
  | cons p m ih =>
    obtain ⟨k', v'⟩ := p
    by_cases hk : k' = k
    · simp only [mapFind, if_pos hk] at h
      cases h
    · simp only [mapFind, List.cons_append, if_neg hk] at h ⊢
      exact ih h

/-- A repair step over a key that is already present does nothing. -/
lemma repairStep_found (m : List (String × Axis)) (a : String)
    (h : (mapFind m a).isSome = true) : repairStep m a = m := by
  simp [repairStep, h]

/-- After a repair step, the stepped key is present. -/
lemma mapFind_repairStep_self (m : List (String × Axis)) (a : String) :
    (mapFind (repairStep m a) a).isSome = true := by
  unfold repairStep
  cases h : mapFind m a with
  | some v => simp [h]
  | none =>
    simp only [h, Option.isSome_none, Bool.false_eq_true, if_false,
      mapInsert]
    rw [mapFind_append_of_none m a a _ h]
    simp

/-- A repair step preserves every existing binding. -/
lemma mapFind_repairStep_of_some (m : List (String × Axis)) (a k : String)
    (v : Axis) (h : mapFind m k = some v) :
    mapFind (repairStep m a) k = some v := by
  unfold repairStep
  split
  · exact h
  · exact mapFind_append_of_some m a k v _ h

/-- A key present after a repair step was present before or is the
stepped key. -/
lemma mapFind_repairStep_isSome_elim (m : List (String × Axis))
    (a k : String) (h : (mapFind (repairStep m a) k).isSome = true) :
    (mapFind m k).isSome = true ∨ k = a := by
  by_cases hm : (mapFind m k).isSome = true
  · exact Or.inl hm
  · right
    have hnone : mapFind m k = none := by
      cases hx : mapFind m k with
      | some v => rw [hx] at hm; simp at hm
      | none => rfl
    unfold repairStep at h
    split at h
    · rw [hnone] at h
      simp at h
    · unfold mapInsert at h
      rw [mapFind_append_of_none m a k _ hnone] at h
      by_cases hak : a = k
      · exact hak.symm
      · rw [if_neg hak] at h
        simp at h

/-- The repair loop preserves every existing binding. -/
lemma mapFind_foldl_of_some (names : List String) :
    ∀ (m : List (String × Axis)) (k : String) (v : Axis),
      mapFind m k = some v →
      mapFind (names.foldl repairStep m) k = some v := by
  induction names with
  | nil => intro m k v h; exact h
  | cons a names ih =>
    intro m k v h
    exact ih _ k v (mapFind_repairStep_of_some m a k v h)

/-- After the repair loop, every looped-over key is present. -/
lemma mapFind_foldl_self (names : List String) :
    ∀ (m : List (String × Axis)) (a : String), a ∈ names →
      (mapFind (names.foldl repairStep m) a).isSome = true := by
  induction names with
  | nil => intro m a ha; cases ha
  | cons b names ih =>
    intro m a ha
    rcases List.mem_cons.1 ha with rfl | ha'
    · obtain ⟨v, hv⟩ :=
        Option.isSome_iff_exists.1 (mapFind_repairStep_self m a)
      rw [List.foldl_cons, mapFind_foldl_of_some names _ a v hv]
      rfl
    · rw [List.foldl_cons]
      exact ih _ a ha'

/-- A key present after the repair loop was present before or is one of
the looped-over names. -/
lemma mapFind_foldl_isSome_elim (names : List String) :
    ∀ (m : List (String × Axis)) (k : String),
      (mapFind (names.foldl repairStep m) k).isSome = true →
      (mapFind m k).isSome = true ∨ k ∈ names := by
  induction names with
  | nil => intro m k h; exact Or.inl h
  | cons a names ih =>
    intro m k h
    rw [List.foldl_cons] at h
    rcases ih _ k h with h' | h'
    · rcases mapFind_repairStep_isSome_elim m a k h' with h'' | h''
      · exact Or.inl h''
      · exact Or.inr (by simp [h''])
    · exact Or.inr (List.mem_cons_of_mem a h')

/-- The repair loop does nothing when every looped-over key is already
present. -/
lemma foldl_repairStep_of_all_found (names : List String) :
    ∀ m : List (String × Axis),
      (∀ a ∈ names, (mapFind m a).isSome = true) →
      names.foldl repairStep m = m := by
  induction names with
  | nil => intro m _; rfl
  | cons a names ih =>
    intro m hall
    rw [List.foldl_cons, repairStep_found m a (hall a (by simp))]
    exact ih m fun b hb => hall b (by simp [hb])

/-- The axis repair of one map is idempotent. -/
lemma repairAxes_idem (m : List (String × Axis)) :
    repairAxes (repairAxes m) = repairAxes m := by
  rw [repairAxes_def, repairAxes_def]
  exact foldl_repairStep_of_all_found axisNames _ fun a ha =>
    mapFind_foldl_self axisNames m a ha

/-- The per-cell axis repair is idempotent. -/
lemma repairCell_idem (c : Cell) :
    repairCell (repairCell c) = repairCell c := by
  unfold repairCell
  simp [repairAxes_idem]

/-- C4 as stated is false: a stored cell carrying the extra axis name
`z` keeps it through `newLayoutResponse`, so its axis map holds a key
outside the well-known three. -/
theorem axes_exact_keys_counterexample :
    (newLayoutResponse L4).Layout.Cells.map Cell.Axes =
      [some [("z", { Bounds := ["0"] }), ("x", { Bounds := [] }),
             ("y", { Bounds := [] }), ("y2", { Bounds := [] })]] ∧
      "z" ∉ axisNames := by decide

/-- C4 amended: after `BuildResponse` every cell's axis map is non-nil
and contains at least the keys `x`, `y` and `y2`; bindings of the input
cell are kept unchanged, and every key of the output map comes from the
input cell or is one of the three well-known names. -/
theorem axes_repair_amended (l : Layout) (c : Cell)
    (hc : c ∈ (newLayoutResponse l).Layout.Cells) :
    ∃ c0 ∈ l.Cells, c = repairCell c0 ∧ ∃ m, c.Axes = some m ∧
      (∀ a ∈ axisNames, (mapFind m a).isSome = true) ∧
      (∀ k v, mapFind (c0.Axes.getD []) k = some v →
        mapFind m k = some v) ∧
      (∀ k, (mapFind m k).isSome = true →
        (mapFind (c0.Axes.getD []) k).isSome = true ∨ k ∈ axisNames) := by
  have hc' : c ∈ l.Cells.map repairCell := hc
  obtain ⟨c0, hc0, rfl⟩ := List.mem_map.1 hc'
  refine ⟨c0, hc0, rfl, repairAxes (c0.Axes.getD []), rfl, ?_, ?_, ?_⟩
  · intro a ha
    rw [repairAxes_def]
    exact mapFind_foldl_self axisNames _ a ha
  · intro k v hv
    rw [repairAxes_def]
    exact mapFind_foldl_of_some axisNames _ k v hv
  · intro k hk
    rw [repairAxes_def] at hk
    exact mapFind_foldl_isSome_elim axisNames _ k hk

/-- Witness for the amended C4 at the layout whose cell holds the extra
axis name `z`. -/
theorem axes_repair_amended_witness :
    ∃ c0 ∈ L4.Cells,
      ({ W := 1, H := 1, Queries := [],
         Axes := some [("z", { Bounds := ["0"] }), ("x", { Bounds := [] }),
                       ("y", { Bounds := [] }),
                       ("y2", { Bounds := [] })] } : Cell) =
        repairCell c0 ∧
      ∃ m, ({ W := 1, H := 1, Queries := [],
              Axes := some [("z", { Bounds := ["0"] }),
                            ("x", { Bounds := [] }), ("y", { Bounds := [] }),
                            ("y2", { Bounds := [] })] } : Cell).Axes =
          some m ∧
        (∀ a ∈ axisNames, (mapFind m a).isSome = true) ∧
        (∀ k v, mapFind (c0.Axes.getD []) k = some v →
          mapFind m k = some v) ∧
        (∀ k, (mapFind m k).isSome = true →
          (mapFind (c0.Axes.getD []) k).isSome = true ∨ k ∈ axisNames) :=
  axes_repair_amended L4 _ (by decide)

/-- C5: applying `newLayoutResponse` to the layout produced by a first
application yields the same cell axis maps as the single application. -/
theorem newLayoutResponse_idempotent (l : Layout) :
    (newLayoutResponse (newLayoutResponse l).Layout).Layout.Cells.map
        Cell.Axes =
      (newLayoutResponse l).Layout.Cells.map Cell.Axes := by
  have hmap : ∀ cs : List Cell,
      (cs.map repairCell).map repairCell = cs.map repairCell := by
    intro cs
    induction cs with
    | nil => rfl
    | cons c cs ih => simp [ih, repairCell_idem]
  show ((l.Cells.map repairCell).map repairCell).map Cell.Axes =
    (l.Cells.map repairCell).map Cell.Axes
  rw [hmap]

/-- When the body decodes, the layout handed to the store's `Update` is
the decoded body with its `ID` overwritten by the path id. -/
lemma updateLayout_call_eq (id : String) (getRes : Except String Layout)
    (req0 : Layout) (orgRes : Except String Nat) (updErr : Option String)
    (l : Layout)
    (h : (updateLayout id getRes (Except.ok req0) orgRes updErr).2 =
      some l) :
    l = { req0 with ID := id } := by
  unfold updateLayout at h
  repeat' split at h
  all_goals simp_all

/-- When the body decodes and the handler answers with the success
envelope, that envelope is built over the decoded body with the path
id. -/
lemma updateLayout_success_eq (id : String) (getRes : Except String Layout)
    (req0 : Layout) (orgRes : Except String Nat) (updErr : Option String)
    (res : layoutResponse)
    (h : (updateLayout id getRes (Except.ok req0) orgRes updErr).1 =
      UpdateOutcome.success res) :
    res = newLayoutResponse { req0 with ID := id } := by
  unfold updateLayout at h
  repeat' split at h
  all_goals simp_all

/-- C7: for every decoded body, the layout passed to the store's
`Update` carries the path-supplied id, and so does the layout echoed in
the success response — regardless of the id the body specified. -/
theorem update_path_id_authoritative (id : String)
    (getRes : Except String Layout) (req0 : Layout)
    (orgRes : Except String Nat) (updErr : Option String) :
    (∀ l, (updateLayout id getRes (Except.ok req0) orgRes updErr).2 =
        some l → l.ID = id) ∧
      (∀ res,
        (updateLayout id getRes (Except.ok req0) orgRes updErr).1 =
          UpdateOutcome.success res → res.Layout.ID = id) := by
  constructor
  · intro l hl
    rw [updateLayout_call_eq id getRes req0 orgRes updErr l hl]
  · intro res hres
    rw [updateLayout_success_eq id getRes req0 orgRes updErr res hres]
    rfl

/-- Witness for C7: a successful update on path id `"path"` of a body
that claims id `"1"` persists and echoes id `"path"`. -/
theorem update_path_id_witness :
    ({ L0 with ID := "path" } : Layout).ID = "path" ∧
      (newLayoutResponse { L0 with ID := "path" }).Layout.ID = "path" :=
  ⟨(update_path_id_authoritative "path" (Except.ok L1) L0 (Except.ok 0)
      none).1 { L0 with ID := "path" } (by decide),
    (update_path_id_authoritative "path" (Except.ok L1) L0 (Except.ok 0)
      none).2 (newLayoutResponse { L0 with ID := "path" }) (by decide)⟩

/-- C8: validation mutates nothing the caller persists: on a body with
an empty `Organization`, the layout handed to the store's `Update` is
the decoded body unchanged in every field — `Organization` still
empty — apart from the path-id overwrite that precedes validation. -/
theorem validator_no_side_effects (id : String)
    (getRes : Except String Layout) (req0 : Layout)
    (orgRes : Except String Nat) (updErr : Option String) (l : Layout)
    (horg : req0.Organization = "")
    (hcall : (updateLayout id getRes (Except.ok req0) orgRes updErr).2 =
      some l) :
    l.Application = req0.Application ∧ l.Measurement = req0.Measurement ∧
      l.Cells = req0.Cells ∧ l.Organization = "" ∧
      l = { req0 with ID := id } := by
  have h := updateLayout_call_eq id getRes req0 orgRes updErr l hcall
  subst h
  exact ⟨rfl, rfl, rfl, horg, rfl⟩

/-- Witness for C8: a successful update of `L0` (empty `Organization`)
persists the body unchanged apart from the path id. -/
theorem validator_no_side_effects_witness :
    ({ L0 with ID := "path" } : Layout).Application = L0.Application ∧
      ({ L0 with ID := "path" } : Layout).Measurement = L0.Measurement ∧
      ({ L0 with ID := "path" } : Layout).Cells = L0.Cells ∧
      ({ L0 with ID := "path" } : Layout).Organization = "" ∧
      ({ L0 with ID := "path" } : Layout) = { L0 with ID := "path" } :=
  validator_no_side_effects "path" (Except.ok L1) L0 (Except.ok 0) none
    { L0 with ID := "path" } rfl (by decide)

/-- C9: when the store's `Get` on the path id fails, the handler
answers not-found naming the id and the store's `Update` is never
invoked. -/
theorem update_missing_id_no_write (id e : String)
    (body : Except String Layout) (orgRes : Except String Nat)
    (updErr : Option String) :
    updateLayout id (Except.error e) body orgRes updErr =
      (UpdateOutcome.notFound ("ID " ++ id ++ " not found"), none) := rfl

end Chronograf
